import Mathlib

/-!
Shallow embedding of the two entry points of the repository:

* `robot_simulator.py` — the workflow stage engine (namespace `RobotSim`);
* `rail_control.py` — the motion command executor (namespace `RailControl`).

Conventions of the embedding:

* JSON payload fields that the source only ever compares against string
  constants are modelled as `Option String`; Python truthiness of such a
  value (`None` and `""` are falsy) is `strTruthy` below.
* The global random source is modelled as an abstract stream
  `rng : Nat → Nat`; the k-th call of `random.uniform(lo, hi)` yields a
  number of milliseconds in the interval given by `uniformDraw`.  Sleep
  durations are recorded in the run result; they never influence events.
* An uncaught Python exception (a path that prints no terminal event and
  dies with a traceback) is modelled by the outcome `Outcome.crash`.
-/

namespace RobotSim

/-- Python truthiness of an optional string value: `None` and `""` are
falsy, every other string is truthy. -/
def strTruthy : Option String → Bool
  | none => false
  | some s => !(s == "")

/-- Python `a or b` on two optional string values: `b` whenever `a` is
falsy (`request_id = payload.get("requestId") or payload.get("request_id")`,
line 91 of `robot_simulator.py`). -/
def pyOr (a b : Option String) : Option String :=
  if strTruthy a then a else b

/-- Python `a or d` collapsing an optional string to a string: the string
in `a` when truthy, the default `d` otherwise. -/
def pyOrStr (a : Option String) (d : String) : String :=
  match a with
  | some s => if s == "" then d else s
  | none => d

/-- Python `str.lower()` restricted to ASCII case folding (the only case
folding the payload values compared in the source can need; the Korean
constant `불출` is fixed by `.lower()` in Python as well as here). -/
def lowerStr (s : String) : String :=
  String.mk (s.data.map Char.toLower)

/-- The `simulate` object of the JSON payload: keys `fail_stage` and
`reason`, both optional strings (`robot_simulator.py` lines 78–79,
112–113, 119). -/
structure SimulateCfg where
  fail_stage : Option String
  reason : Option String
deriving Repr, DecidableEq

/-- The parsed JSON request payload, restricted to the keys
`robot_simulator.py` reads, with string-valued fields.  `includes` models
`payload.get("dispatch", \x7b\x7d).get("includes")` from line 133. -/
structure Payload where
  requestId : Option String
  request_id : Option String
  mode : Option String
  type : Option String
  simulate : Option SimulateCfg
  includes : Option String
deriving Repr, DecidableEq

/-- The payload obtained from empty standard input: `load_payload`
returns the empty dict (line 55–56), so every `get` yields `None`. -/
def emptyPayload : Payload := ⟨none, none, none, none, none, none⟩

/-- One emitted line of the event stream.  A `progress` record carries a
`mode` key only where the source dict literal includes one (stage events
at line 110 and the starting event at line 100 do, vision-check events at
line 76 do not); the payload-error record of line 60 likewise has none. -/
inductive Event where
  | progress (stage : String) (message : String) (mode : Option String)
  | completeSuccess (stage : String) (message : String) (mode : String)
      (summaryRequestId : Option String) (summaryIncludes : Option String)
  | completeError (stage : String) (message : String) (mode : Option String)
deriving Repr, DecidableEq

/-- Stage key of an event. -/
def Event.stage : Event → String
  | .progress s _ _ => s
  | .completeSuccess s _ _ _ _ => s
  | .completeError s _ _ => s

/-- Whether an event is a progress record. -/
def Event.isProgress : Event → Bool
  | .progress _ _ _ => true
  | _ => false

/-- Whether an event is a terminal (`"event": "complete"`) record. -/
def Event.isComplete : Event → Bool
  | .progress _ _ _ => false
  | .completeSuccess _ _ _ _ _ => true
  | .completeError _ _ _ => true

/-- `STAGES_RETURN` of `robot_simulator.py` (lines 27–32). -/
def STAGES_RETURN : List (String × String) :=
  [("prepare", "반납 준비 중"),
   ("verify", "반납 물품 시각 검사"),
   ("stow", "보관 구역으로 이동"),
   ("complete", "보관 완료")]

/-- `STAGES_DISPATCH` of `robot_simulator.py` (lines 34–39). -/
def STAGES_DISPATCH : List (String × String) :=
  [("prepare", "불출 준비 중"),
   ("pick", "요청 장비 수거"),
   ("verify", "출고 전 시각 검사"),
   ("handover", "사용자에게 전달")]

/-- `VISION_CHECKS` of `robot_simulator.py` (lines 41–45). -/
def VISION_CHECKS : List (String × String) :=
  [("magazine_top", "탄창 최상단 탄알 위치 확인"),
   ("selector", "조정간 위치 확인"),
   ("serial", "총기 QR 코드 확인")]

/-- The k-th draw of `random.uniform(lo, hi)` in a run, modelled as a
natural number of milliseconds in the closed interval from `lo` to `hi`
taken from the abstract stream `rng` (`simulate_delay`, lines 68–69). -/
def uniformDraw (rng : Nat → Nat) (k lo hi : Nat) : Nat :=
  lo + rng k % (hi + 1 - lo)

/-- `simulate.get("reason")` falling back to the label plus `" 실패"` — the message of the
synthesized `RuntimeError` (lines 79 and 113): the configured reason when
truthy, otherwise the stage label followed by `" 실패"`. -/
def failMessage (cfg : SimulateCfg) (label : String) : String :=
  pyOrStr cfg.reason (label ++ " 실패")

/-- Result of one emit/sleep/inject loop: the emitted events, the sleep
durations, the total number of random draws consumed so far, and the
message of the synthesized `RuntimeError` when the loop aborted. -/
structure LoopOut where
  events : List Event
  sleeps : List Nat
  draws : Nat
  err : Option String
deriving Repr, DecidableEq

/-- Common shape of the stage loop (lines 109–113) and the vision-check
loop (lines 75–79): for each pair emit `mk key label`, sleep a duration
drawn from `lo`–`hi`, and raise when `fail_stage` equals the key.  `k`
counts the random draws consumed before the loop starts. -/
def emitLoop (rng : Nat → Nat) (cfg : SimulateCfg) (mk : String → String → Event)
    (lo hi : Nat) : List (String × String) → Nat → LoopOut
  | [], k => ⟨[], [], k, none⟩
  | (key, label) :: rest, k =>
    let ev := mk key label
    let d := uniformDraw rng k lo hi
    if cfg.fail_stage = some key then
      ⟨[ev], [d], k + 1, some (failMessage cfg label)⟩
    else
      let r := emitLoop rng cfg mk lo hi rest (k + 1)
      ⟨ev :: r.events, d :: r.sleeps, r.draws, r.err⟩

/-- Event emitted for a stage of the per-mode stage list: carries the
resolved mode (line 110). -/
def progressOfStage (mode : String) (q : String × String) : Event :=
  .progress q.1 q.2 (some mode)

/-- Event emitted for a vision check: no mode key (line 76). -/
def progressOfCheck (q : String × String) : Event :=
  .progress q.1 q.2 none

/-- The `for stage, label in stages` loop of `main` (lines 109–113). -/
def stageLoop (rng : Nat → Nat) (cfg : SimulateCfg) (mode : String)
    (l : List (String × String)) (k : Nat) : LoopOut :=
  emitLoop rng cfg (fun key label => .progress key label (some mode)) 400 900 l k

/-- `run_checks` (lines 72–79): a no-op unless the mode is `"return"`,
otherwise the vision-check loop with 250–650 ms delays. -/
def run_checks (rng : Nat → Nat) (mode : String) (cfg : SimulateCfg) (k : Nat) : LoopOut :=
  if mode != "return" then ⟨[], [], k, none⟩
  else emitLoop rng cfg (fun key label => .progress key label none) 250 650 VISION_CHECKS k

/-- `str(payload.get("mode") or "").lower()` (line 92). -/
def rawMode (p : Payload) : String :=
  lowerStr (pyOrStr p.mode "")

/-- Lines 93–94: keep a recognized raw mode, otherwise derive from the
`type` field — `"DISPATCH"` or `"ISSUE"` gives `"issue"`, anything else
gives `"return"`. -/
def midMode (p : Payload) : String :=
  if rawMode p = "issue" ∨ rawMode p = "dispatch" ∨ rawMode p = "return" then rawMode p
  else if p.type = some "DISPATCH" ∨ p.type = some "ISSUE" then "issue" else "return"

/-- Line 95: collapse to the two buckets. -/
def normalizeMode (p : Payload) : String :=
  if midMode p = "issue" ∨ midMode p = "dispatch" ∨ midMode p = "out" ∨ midMode p = "불출"
  then "dispatch" else "return"

/-- `payload.get("simulate") or \x7b\x7d` (line 97): an absent `simulate`
object behaves as the empty one. -/
def cfgOf (p : Payload) : SimulateCfg :=
  p.simulate.getD ⟨none, none⟩

/-- The stage list selected for the resolved mode (line 98). -/
def activeStages (p : Payload) : List (String × String) :=
  if normalizeMode p = "dispatch" then STAGES_DISPATCH else STAGES_RETURN

/-- The vision checks actually run for the resolved mode: `run_checks`
iterates `VISION_CHECKS` only in return mode. -/
def activeChecks (p : Payload) : List (String × String) :=
  if normalizeMode p = "return" then VISION_CHECKS else []

/-- The starting progress event (lines 100–105). -/
def startEvent (p : Payload) : Event :=
  .progress "starting"
    ("요청 " ++ pyOrStr (pyOr p.requestId p.request_id) "-" ++ " 장비 명령 준비")
    (some (normalizeMode p))

/-- The terminal success event (lines 125–135). -/
def successEvent (p : Payload) : Event :=
  .completeSuccess "complete" "장비 동작 시뮬레이션 완료" (normalizeMode p)
    (pyOr p.requestId p.request_id) p.includes

/-- The terminal error event (lines 116–122): its stage is
`simulate_cfg.get("fail_stage") or "unknown"`. -/
def finishError (p : Payload) (msg : String) : Event :=
  .completeError (pyOrStr (cfgOf p).fail_stage "unknown") msg (some (normalizeMode p))

/-- Process outcome: a normal `sys.exit`/return code, or death by an
uncaught exception (traceback, no further output). -/
inductive Outcome where
  | exitCode (c : Nat)
  | crash
deriving Repr, DecidableEq

/-- Observable result of one invocation: the emitted event lines in
order, the sleep durations in order, and the process outcome. -/
structure SimRun where
  events : List Event
  sleeps : List Nat
  outcome : Outcome
deriving Repr, DecidableEq

/-- `main` on a successfully parsed object payload (lines 90–136):
starting event, setup delay (draw 0, 200–500 ms), the stage loop, then
`run_checks`, with the synthesized `RuntimeError` of either loop caught
at lines 115–123. -/
def mainPayload (rng : Nat → Nat) (p : Payload) : SimRun :=
  let mode := normalizeMode p
  let d0 := uniformDraw rng 0 200 500
  let r := stageLoop rng (cfgOf p) mode (activeStages p) 1
  match r.err with
  | some msg =>
    ⟨startEvent p :: (r.events ++ [finishError p msg]), d0 :: r.sleeps, .exitCode 2⟩
  | none =>
    let c := run_checks rng mode (cfgOf p) r.draws
    match c.err with
    | some msg =>
      ⟨startEvent p :: (r.events ++ c.events ++ [finishError p msg]),
        d0 :: (r.sleeps ++ c.sleeps), .exitCode 2⟩
    | none =>
      ⟨startEvent p :: (r.events ++ c.events ++ [successEvent p]),
        d0 :: (r.sleeps ++ c.sleeps), .exitCode 0⟩

/-- What standard input held, as classified by `load_payload` plus the
first uses of `payload` in `main`. -/
inductive Input where
  /-- Non-empty input that `json.loads` rejects; `exc` is the decoder
  message interpolated into the error event (lines 59–65). -/
  | malformed (exc : String)
  /-- Empty standard input: `load_payload` returns the empty dict
  (lines 55–56). -/
  | empty
  /-- Valid JSON whose top-level value is not an object (for example
  `5`): `load_payload` returns it unchanged and `payload.get` raises
  `AttributeError` at line 91, before any event is emitted. -/
  | nonObject
  /-- A JSON object, restricted to the string-typed fields read by the
  source. -/
  | payload (p : Payload)
deriving Repr, DecidableEq

/-- Whole-process behaviour of `robot_simulator.py` per input class. -/
def simMain (rng : Nat → Nat) : Input → SimRun
  | .malformed exc =>
    ⟨[.completeError "payload" ("유효하지 않은 JSON 입력: " ++ exc) none], [], .exitCode 1⟩
  | .empty => mainPayload rng emptyPayload
  | .nonObject => ⟨[], [], .crash⟩
  | .payload p => mainPayload rng p

/-- The full progress-event sequence of a run that never aborts:
stage events (with mode) followed by vision-check events (without). -/
def stageEvents (p : Payload) : List Event :=
  (activeStages p).map (progressOfStage (normalizeMode p))

/-- Vision-check progress events of a run that reaches them. -/
def checkEvents (p : Payload) : List Event :=
  (activeChecks p).map progressOfCheck

/-- All progress events a run of payload `p` can emit after the starting
event, in order. -/
def fullProgressList (p : Payload) : List Event :=
  stageEvents p ++ checkEvents p

end RobotSim

namespace RailControl

/-- JSON scalar values as far as `rail_control.py` inspects them. -/
inductive JVal where
  | jnull
  | jbool (b : Bool)
  | jnum (n : Int)
  | jstr (s : String)
deriving Repr, DecidableEq

/-- Python truthiness of a JSON scalar. -/
def JVal.truthy : JVal → Bool
  | .jnull => false
  | .jbool b => b
  | .jnum n => !(n == 0)
  | .jstr s => !(s == "")

/-- A Python dict with scalar values, as an insertion-ordered key/value
list (an actual dict never holds a duplicate key; lemmas that need that
invariant take it as a hypothesis on the key list). -/
abbrev Dict := List (String × JVal)

/-- `d.get(key)` / `key in d`: the first binding of `key`. -/
def dGet : Dict → String → Option JVal
  | [], _ => none
  | (k, v) :: rest, key => if k = key then some v else dGet rest key

/-- `d[key] = v`: replace the binding in place when the key exists,
otherwise append (insertion order preserved, as for Python dicts). -/
def dSet : Dict → String → JVal → Dict
  | [], key, v => [(key, v)]
  | (k, w) :: rest, key, v =>
    if k = key then (k, v) :: rest else (k, w) :: dSet rest key v

/-- `d.update(e)`: assign every binding of `e` into `d` in order. -/
def dUpdate (d : Dict) (e : Dict) : Dict :=
  e.foldl (fun acc kv => dSet acc kv.1 kv.2) d

/-- `d.setdefault(key, v)`. -/
def dSetdefault (d : Dict) (key : String) (v : JVal) : Dict :=
  if (dGet d key).isSome then d else d ++ [(key, v)]

/-- Result of one call on the bridge client: it raises with a message, or
returns a dict, or returns a non-dict value (all the source does with a
non-dict result is the `isinstance(result, dict)` test, so those collapse
into one constructor). -/
inductive BCall where
  | raises (msg : String)
  | dict (d : Dict)
  | nonDict
deriving Repr, DecidableEq

/-- Abstract behaviour of the external `BridgeClient` session during one
invocation: whether constructing/entering the client raises
(`bridge`, lines 18–23), and what each command returns.  Exceptions from
`client.__exit__` are swallowed by `bridge` (lines 25–28) and cannot
influence the output, so they are not modelled. -/
structure Bridge where
  openError : Option String
  move : BCall
  home : BCall
  status : BCall
deriving Repr, DecidableEq

/-- Lines 35–38 / 45–48: query `rail_status()` and, when it returns a
dict containing `"position"`, `setdefault` that value into the result.
`Except.error` models an exception propagating out of the helper. -/
def mergeStatus (result : Dict) (status : BCall) : Except String Dict :=
  match status with
  | .raises m => .error m
  | .nonDict => .ok result
  | .dict sd =>
    match dGet sd "position" with
    | some v => .ok (dSetdefault result "position" v)
    | none => .ok result

/-- Common body of `ensure_position` (lines 31–38) and `ensure_home`
(lines 41–48): run the primary command, coerce a non-dict result to
`("ok", True)`, then merge the status position. -/
def ensureResult (primary : BCall) (status : BCall) : Except String Dict :=
  match primary with
  | .raises m => .error m
  | .nonDict => mergeStatus [("ok", .jbool true)] status
  | .dict d => mergeStatus d status

/-- `ensure_position` (lines 31–38); the numeric arguments do not
influence the shape of the result. -/
def ensure_position (b : Bridge) : Except String Dict :=
  ensureResult b.move b.status

/-- `ensure_home` (lines 41–48). -/
def ensure_home (b : Bridge) : Except String Dict :=
  ensureResult b.home b.status

/-- The `--action` flag; argparse restricts it to these three choices
(line 53). -/
inductive Action where
  | extend
  | home
  | position
deriving Repr, DecidableEq

/-- The string value argparse stores for the action. -/
def Action.str : Action → String
  | .extend => "extend"
  | .home => "home"
  | .position => "position"

/-- One invocation of `rail_control.py`: whether importing
`robot_sdk_v13_rail_extended` raised (lines 8–15, with the exception
message), the bridge behaviour, and the parsed command-line flags
(floats modelled as integers — the script does no arithmetic on them). -/
structure ExecConfig where
  importError : Option String
  bridge : Bridge
  action : Action
  host : String
  position : Int
  speed : Int
deriving Repr, DecidableEq

/-- Observable result of one invocation: every printed record in order,
and the exit code. -/
structure ExecRun where
  outputs : List Dict
  exitCode : Nat
deriving Repr, DecidableEq

/-- The initial `payload` dict of `main` (line 59): the echoed request
values. -/
def basePayload (c : ExecConfig) : Dict :=
  [("action", .jstr c.action.str), ("position", .jnum c.position),
   ("speed", .jnum c.speed)]

/-- Lines 62–65: `ensure_home` for the `home` action, `ensure_position`
for `extend` and `position`. -/
def commandResult (c : ExecConfig) : Except String Dict :=
  if c.action = .home then ensure_home c.bridge else ensure_position c.bridge

/-- The body of the `with bridge(...)` block (lines 60–65): an exception
while entering the session or issuing commands propagates to the handler
of line 66. -/
def sessionResult (c : ExecConfig) : Except String Dict :=
  match c.bridge.openError with
  | some m => .error m
  | none => commandResult c

/-- Lines 74–79: merge the response into the payload, default `ok`,
alias `current_position` into a missing `position`, print, and derive the
exit code. -/
def finishPayload (c : ExecConfig) (response : Dict) : ExecRun :=
  let p1 := dUpdate (basePayload c) (if response.isEmpty then [] else response)
  let p2 := dSetdefault p1 "ok" (.jbool true)
  let p3 :=
    if ((dGet p2 "current_position").elim false JVal.truthy
        && (dGet p2 "position").isNone) then
      dSet p2 "position" ((dGet p2 "current_position").getD .jnull)
    else p2
  ⟨[p3], if (dGet p3 "ok").elim true JVal.truthy then 0 else 1⟩

/-- The module import guard (lines 8–15) composed with `main`
(lines 51–79). -/
def railMain (c : ExecConfig) : ExecRun :=
  match c.importError with
  | some e =>
    ⟨[[("ok", .jbool false), ("error", .jstr ("bridge_import_failed: " ++ e))]], 1⟩
  | none =>
    match sessionResult c with
    | .error m =>
      ⟨[dUpdate (basePayload c) [("ok", .jbool false), ("error", .jstr m)]], 1⟩
    | .ok response => finishPayload c response

end RailControl


namespace RobotSim

theorem emitLoop_no_match (rng : Nat → Nat) (cfg : SimulateCfg)
    (mk : String → String → Event) (lo hi : Nat) (l : List (String × String)) (k : Nat)
    (h : ∀ q ∈ l, ¬ cfg.fail_stage = some q.1) :
    (emitLoop rng cfg mk lo hi l k).events = l.map (fun q => mk q.1 q.2) ∧
    (emitLoop rng cfg mk lo hi l k).err = none := by
  induction l generalizing k with
  | nil => simp [emitLoop]
  | cons q rest ih =>
    obtain ⟨key, label⟩ := q
    have hk : ¬ cfg.fail_stage = some key := h (key, label) (List.mem_cons_self _ _)
    have hrest : ∀ q ∈ rest, ¬ cfg.fail_stage = some q.1 :=
      fun q hq => h q (List.mem_cons_of_mem _ hq)
    have hr := ih (k + 1) hrest
    simp [emitLoop, hk, hr.1, hr.2]

theorem emitLoop_match (rng : Nat → Nat) (cfg : SimulateCfg)
    (mk : String → String → Event) (lo hi : Nat)
    (l1 : List (String × String)) (key label : String) (l2 : List (String × String)) (k : Nat)
    (h1 : ∀ q ∈ l1, ¬ cfg.fail_stage = some q.1) (h2 : cfg.fail_stage = some key) :
    (emitLoop rng cfg mk lo hi (l1 ++ (key, label) :: l2) k).events =
      l1.map (fun q => mk q.1 q.2) ++ [mk key label] ∧
    (emitLoop rng cfg mk lo hi (l1 ++ (key, label) :: l2) k).err =
      some (failMessage cfg label) := by
  induction l1 generalizing k with
  | nil => simp [emitLoop, h2]
  | cons q rest ih =>
    obtain ⟨qk, ql⟩ := q
    have hk : ¬ cfg.fail_stage = some qk := h1 (qk, ql) (List.mem_cons_self _ _)
    have hrest : ∀ q ∈ rest, ¬ cfg.fail_stage = some q.1 :=
      fun q hq => h1 q (List.mem_cons_of_mem _ hq)
    have hr := ih (k + 1) hrest
    simp [emitLoop, hk, hr.1, hr.2]

theorem emitLoop_inv (r1 r2 : Nat → Nat) (cfg : SimulateCfg)
    (mk : String → String → Event) (lo hi : Nat) (l : List (String × String)) (k1 k2 : Nat) :
    (emitLoop r1 cfg mk lo hi l k1).events = (emitLoop r2 cfg mk lo hi l k2).events ∧
    (emitLoop r1 cfg mk lo hi l k1).err = (emitLoop r2 cfg mk lo hi l k2).err := by
  induction l generalizing k1 k2 with
  | nil => simp [emitLoop]
  | cons q rest ih =>
    obtain ⟨key, label⟩ := q
    by_cases hk : cfg.fail_stage = some key
    · simp [emitLoop, hk]
    · have hr := ih (k1 + 1) (k2 + 1)
      simp [emitLoop, hk, hr.1, hr.2]

theorem normalizeMode_cases (p : Payload) :
    normalizeMode p = "dispatch" ∨ normalizeMode p = "return" := by
  unfold normalizeMode
  split
  · exact Or.inl rfl
  · exact Or.inr rfl

/-- Splitting a key/label list at the first pair carrying a given key. -/
theorem exists_first_split (l : List (String × String)) (key : String)
    (hmem : key ∈ l.map Prod.fst) :
    ∃ l1 label l2, l = l1 ++ (key, label) :: l2 ∧ ∀ q ∈ l1, q.1 ≠ key := by
  induction l with
  | nil => simp at hmem
  | cons q rest ih =>
    obtain ⟨qk, ql⟩ := q
    by_cases hq : qk = key
    · exact ⟨[], ql, rest, by simp [hq], by simp⟩
    · have hmem2 : key ∈ rest.map Prod.fst := by
        rcases (List.mem_map).1 hmem with ⟨r, hr, hrk⟩
        rcases List.mem_cons.1 hr with rfl | hr2
        · exact absurd hrk hq
        · exact hrk ▸ List.mem_map_of_mem Prod.fst hr2
      obtain ⟨l1, lab, l2, hsplit, hfirst⟩ := ih hmem2
      refine ⟨(qk, ql) :: l1, lab, l2, by simp [hsplit], ?_⟩
      intro r hr
      rcases List.mem_cons.1 hr with rfl | hr2
      · exact hq
      · exact hfirst r hr2

theorem run_checks_not_return (rng : Nat → Nat) (mode : String) (cfg : SimulateCfg) (k : Nat)
    (h : ¬ mode = "return") :
    run_checks rng mode cfg k = ⟨[], [], k, none⟩ := by
  simp [run_checks, h]

theorem run_checks_return (rng : Nat → Nat) (cfg : SimulateCfg) (k : Nat) :
    run_checks rng "return" cfg k =
      emitLoop rng cfg (fun key label => .progress key label none) 250 650 VISION_CHECKS k := by
  simp [run_checks]

theorem mainPayload_success (rng : Nat → Nat) (p : Payload)
    (h : ∀ q ∈ activeStages p ++ activeChecks p, ¬ (cfgOf p).fail_stage = some q.1) :
    (mainPayload rng p).events =
      startEvent p :: (stageEvents p ++ checkEvents p ++ [successEvent p]) ∧
    (mainPayload rng p).outcome = .exitCode 0 := by
  have hs : ∀ q ∈ activeStages p, ¬ (cfgOf p).fail_stage = some q.1 :=
    fun q hq => h q (List.mem_append_left _ hq)
  have hr := emitLoop_no_match rng (cfgOf p)
    (fun key label => Event.progress key label (some (normalizeMode p))) 400 900
    (activeStages p) 1 hs
  rcases normalizeMode_cases p with hm | hm
  · have hck := run_checks_not_return rng (normalizeMode p) (cfgOf p)
      (stageLoop rng (cfgOf p) (normalizeMode p) (activeStages p) 1).draws
      (by rw [hm]; decide)
    have hchecks : activeChecks p = [] := by simp [activeChecks, hm]
    simp only [mainPayload, stageLoop] at hck ⊢
    rw [hr.2, hck]
    simp [hr.1, stageEvents, checkEvents, hchecks, progressOfStage]
  · have hc : ∀ q ∈ VISION_CHECKS, ¬ (cfgOf p).fail_stage = some q.1 := by
      intro q hq
      exact h q (List.mem_append_right _ (by simp [activeChecks, hm, hq]))
    rw [hm] at hr
    have hcl := emitLoop_no_match rng (cfgOf p)
      (fun key label => Event.progress key label none) 250 650 VISION_CHECKS
      (emitLoop rng (cfgOf p) (fun key label => Event.progress key label (some "return"))
        400 900 (activeStages p) 1).draws hc
    have hck := run_checks_return rng (cfgOf p)
      (emitLoop rng (cfgOf p) (fun key label => Event.progress key label (some "return"))
        400 900 (activeStages p) 1).draws
    simp only [mainPayload, stageLoop]
    rw [hm]
    simp only [hr.1, hr.2, hck, hcl.1, hcl.2, stageEvents, checkEvents, activeChecks, hm,
      if_pos rfl, List.cons_append, List.append_assoc]
    constructor <;> trivial

theorem mainPayload_stage_fail (rng : Nat → Nat) (p : Payload)
    (l1 : List (String × String)) (key label : String) (l2 : List (String × String))
    (hsplit : activeStages p = l1 ++ (key, label) :: l2)
    (h1 : ∀ q ∈ l1, ¬ (cfgOf p).fail_stage = some q.1)
    (h2 : (cfgOf p).fail_stage = some key) :
    (mainPayload rng p).events =
      startEvent p :: (l1.map (progressOfStage (normalizeMode p)) ++
        [Event.progress key label (some (normalizeMode p))] ++
        [finishError p (failMessage (cfgOf p) label)]) ∧
    (mainPayload rng p).outcome = .exitCode 2 := by
  have hr := emitLoop_match rng (cfgOf p)
    (fun key label => Event.progress key label (some (normalizeMode p))) 400 900
    l1 key label l2 1 h1 h2
  simp only [mainPayload, stageLoop, hsplit]
  simp only [hr.1, hr.2, List.cons_append, List.append_assoc]
  constructor <;> trivial

theorem mainPayload_check_fail (rng : Nat → Nat) (p : Payload)
    (l1 : List (String × String)) (key label : String) (l2 : List (String × String))
    (hm : normalizeMode p = "return")
    (hs : ∀ q ∈ activeStages p, ¬ (cfgOf p).fail_stage = some q.1)
    (hsplit : VISION_CHECKS = l1 ++ (key, label) :: l2)
    (h1 : ∀ q ∈ l1, ¬ (cfgOf p).fail_stage = some q.1)
    (h2 : (cfgOf p).fail_stage = some key) :
    (mainPayload rng p).events =
      startEvent p :: (stageEvents p ++ (l1.map progressOfCheck ++
        [Event.progress key label none]) ++
        [finishError p (failMessage (cfgOf p) label)]) ∧
    (mainPayload rng p).outcome = .exitCode 2 := by
  have hr := emitLoop_no_match rng (cfgOf p)
    (fun key label => Event.progress key label (some (normalizeMode p))) 400 900
    (activeStages p) 1 hs
  rw [hm] at hr
  have hcl := emitLoop_match rng (cfgOf p)
    (fun key label => Event.progress key label none) 250 650 l1 key label l2
    (emitLoop rng (cfgOf p) (fun key label => Event.progress key label (some "return"))
      400 900 (activeStages p) 1).draws h1 h2
  have hck := run_checks_return rng (cfgOf p)
    (emitLoop rng (cfgOf p) (fun key label => Event.progress key label (some "return"))
      400 900 (activeStages p) 1).draws
  rw [hsplit] at hck
  simp only [mainPayload, stageLoop]
  rw [hm]
  simp only [hr.1, hr.2, hck, hcl.1, hcl.2, stageEvents, activeChecks, hm,
    List.cons_append, List.append_assoc]
  constructor
  · rfl
  · trivial

theorem mainPayload_dichotomy (rng : Nat → Nat) (p : Payload) :
    ((mainPayload rng p).outcome = .exitCode 0 ∧
      (mainPayload rng p).events.getLast? = some (successEvent p)) ∨
    ((mainPayload rng p).outcome = .exitCode 2 ∧
      ∃ s m, (mainPayload rng p).events.getLast? =
        some (.completeError s m (some (normalizeMode p)))) := by
  simp only [mainPayload, stageLoop]
  cases herr : (emitLoop rng (cfgOf p)
      (fun key label => Event.progress key label (some (normalizeMode p))) 400 900
      (activeStages p) 1).err with
  | some msg =>
    right
    simp only [herr]
    refine ⟨by trivial, pyOrStr (cfgOf p).fail_stage "unknown", msg, ?_⟩
    rw [← List.cons_append, List.getLast?_concat]
    rfl
  | none =>
    simp only [herr]
    cases herr2 : (run_checks rng (normalizeMode p) (cfgOf p)
        (emitLoop rng (cfgOf p)
          (fun key label => Event.progress key label (some (normalizeMode p))) 400 900
          (activeStages p) 1).draws).err with
    | some msg =>
      right
      simp only [herr2]
      refine ⟨by trivial, pyOrStr (cfgOf p).fail_stage "unknown", msg, ?_⟩
      rw [← List.cons_append, List.getLast?_concat]
      rfl
    | none =>
      left
      simp only [herr2]
      refine ⟨by trivial, ?_⟩
      rw [← List.cons_append, List.getLast?_concat]

theorem mainPayload_inv (r1 r2 : Nat → Nat) (p : Payload) :
    (mainPayload r1 p).events = (mainPayload r2 p).events ∧
    (mainPayload r1 p).outcome = (mainPayload r2 p).outcome := by
  have h1 := emitLoop_inv r1 r2 (cfgOf p)
    (fun key label => Event.progress key label (some (normalizeMode p))) 400 900
    (activeStages p) 1 1
  simp only [mainPayload, stageLoop]
  rw [h1.1, h1.2]
  cases herr : (emitLoop r2 (cfgOf p)
      (fun key label => Event.progress key label (some (normalizeMode p))) 400 900
      (activeStages p) 1).err with
  | some msg => exact ⟨rfl, rfl⟩
  | none =>
    by_cases hmode : normalizeMode p = "return"
    · have h2 := emitLoop_inv r1 r2 (cfgOf p)
        (fun key label => Event.progress key label none) 250 650 VISION_CHECKS
        (emitLoop r1 (cfgOf p)
          (fun key label => Event.progress key label (some (normalizeMode p))) 400 900
          (activeStages p) 1).draws
        (emitLoop r2 (cfgOf p)
          (fun key label => Event.progress key label (some (normalizeMode p))) 400 900
          (activeStages p) 1).draws
      rw [hmode] at h2 ⊢
      simp only [run_checks_return]
      rw [h2.1, h2.2]
      cases (emitLoop r2 (cfgOf p)
          (fun key label => Event.progress key label none) 250 650 VISION_CHECKS
          (emitLoop r2 (cfgOf p)
            (fun key label => Event.progress key label (some "return")) 400 900
            (activeStages p) 1).draws).err with
      | some msg => exact ⟨rfl, rfl⟩
      | none => exact ⟨rfl, rfl⟩
    · rw [run_checks_not_return r1 _ _ _ hmode, run_checks_not_return r2 _ _ _ hmode]
      exact ⟨rfl, rfl⟩

end RobotSim

namespace RailControl

theorem dGet_dSet_self (d : Dict) (k : String) (v : JVal) :
    dGet (dSet d k v) k = some v := by
  induction d with
  | nil => simp [dSet, dGet]
  | cons kv rest ih =>
    obtain ⟨k1, v1⟩ := kv
    by_cases h : k1 = k
    · simp [dSet, dGet, h]
    · simp [dSet, dGet, h, ih]

theorem dGet_dSet_ne (d : Dict) (k k2 : String) (v : JVal) (h : ¬ k = k2) :
    dGet (dSet d k v) k2 = dGet d k2 := by
  induction d with
  | nil => simp [dSet, dGet, h]
  | cons kv rest ih =>
    obtain ⟨k1, v1⟩ := kv
    by_cases h1 : k1 = k
    · subst h1
      simp [dSet, dGet, h]
    · simp only [dSet, if_neg h1]
      by_cases h2 : k1 = k2
      · simp [dGet, h2]
      · simp [dGet, h2, ih]

theorem dGet_isSome_dSet (d : Dict) (k : String) (v : JVal) (k2 : String)
    (h : (dGet d k2).isSome) : (dGet (dSet d k v) k2).isSome := by
  by_cases hk : k = k2
  · subst hk
    simp [dGet_dSet_self]
  · rwa [dGet_dSet_ne d k k2 v hk]

theorem dGet_dUpdate_isSome (e d : Dict) (k : String)
    (h : (dGet d k).isSome) : (dGet (dUpdate d e) k).isSome := by
  induction e generalizing d with
  | nil => simpa [dUpdate] using h
  | cons kv rest ih =>
    show (dGet (dUpdate (dSet d kv.1 kv.2) rest) k).isSome
    exact ih _ (dGet_isSome_dSet d kv.1 kv.2 k h)

theorem dGet_dUpdate_of_none (e d : Dict) (k : String) (he : dGet e k = none) :
    dGet (dUpdate d e) k = dGet d k := by
  induction e generalizing d with
  | nil => rfl
  | cons kv rest ih =>
    obtain ⟨k1, v1⟩ := kv
    by_cases h1 : k1 = k
    · simp [dGet, h1] at he
    · simp only [dGet, if_neg h1] at he
      show dGet (dUpdate (dSet d k1 v1) rest) k = dGet d k
      rw [ih (dSet d k1 v1) he, dGet_dSet_ne d k1 k v1 h1]

theorem dGet_none_of_not_mem (d : Dict) (k : String) (h : ¬ k ∈ d.map Prod.fst) :
    dGet d k = none := by
  induction d with
  | nil => rfl
  | cons kv rest ih =>
    obtain ⟨k1, v1⟩ := kv
    simp only [List.map_cons, List.mem_cons] at h
    push_neg at h
    have h1 : ¬ k1 = k := fun hh => h.1 hh.symm
    simp [dGet, h1]
    exact ih h.2

theorem dGet_dUpdate_of_some (e d : Dict) (k : String) (v : JVal)
    (hn : (e.map Prod.fst).Nodup) (h : dGet e k = some v) :
    dGet (dUpdate d e) k = some v := by
  induction e generalizing d with
  | nil => simp [dGet] at h
  | cons kv rest ih =>
    obtain ⟨k1, v1⟩ := kv
    simp only [List.map_cons, List.nodup_cons] at hn
    by_cases h1 : k1 = k
    · subst h1
      simp [dGet] at h
      show dGet (dUpdate (dSet d k1 v1) rest) k1 = some v
      rw [dGet_dUpdate_of_none rest _ k1 (dGet_none_of_not_mem rest k1 hn.1),
        dGet_dSet_self, h]
    · simp only [dGet, if_neg h1] at h
      show dGet (dUpdate (dSet d k1 v1) rest) k = some v
      exact ih _ hn.2 h

theorem dGet_append_of_none (d e : Dict) (k : String) (h : dGet d k = none) :
    dGet (d ++ e) k = dGet e k := by
  induction d with
  | nil => rfl
  | cons kv rest ih =>
    obtain ⟨k1, v1⟩ := kv
    by_cases h1 : k1 = k
    · simp [dGet, h1] at h
    · simp only [dGet, if_neg h1] at h
      simp only [List.cons_append, dGet, if_neg h1]
      exact ih h

theorem dGet_dSetdefault_of_none (d : Dict) (k : String) (v : JVal)
    (h : dGet d k = none) : dGet (dSetdefault d k v) k = some v := by
  unfold dSetdefault
  rw [h]
  simp [dGet_append_of_none d _ k h, dGet]

theorem dGet_dSetdefault_of_some (d : Dict) (k : String) (v w : JVal)
    (h : dGet d k = some w) : dGet (dSetdefault d k v) k = some w := by
  unfold dSetdefault
  rw [h]
  simpa using h

theorem dGet_append_of_some (d e : Dict) (k : String) (w : JVal)
    (h : dGet d k = some w) : dGet (d ++ e) k = some w := by
  induction d with
  | nil => simp [dGet] at h
  | cons kv rest ih =>
    obtain ⟨k1, v1⟩ := kv
    by_cases h1 : k1 = k
    · simpa [dGet, h1] using h
    · simp only [dGet, if_neg h1] at h
      simp only [List.cons_append, dGet, if_neg h1]
      exact ih h

theorem dGet_dSetdefault_ne (d : Dict) (k : String) (v : JVal) (k2 : String)
    (h : ¬ k = k2) : dGet (dSetdefault d k v) k2 = dGet d k2 := by
  unfold dSetdefault
  by_cases hd : (dGet d k).isSome = true
  · simp [hd]
  · simp only [hd, Bool.false_eq_true, if_false]
    cases hd2 : dGet d k2 with
    | some w => simp [dGet_append_of_some d _ k2 w hd2, hd2]
    | none => simp [dGet_append_of_none d _ k2 hd2, hd2, dGet, h]

theorem dGet_isSome_dSetdefault (d : Dict) (k : String) (v : JVal) (k2 : String)
    (h : (dGet d k2).isSome) : (dGet (dSetdefault d k v) k2).isSome := by
  by_cases hk : k = k2
  · subst hk
    cases hd : dGet d k with
    | some w => simp [dGet_dSetdefault_of_some d k v w hd]
    | none => simp [dGet_dSetdefault_of_none d k v hd]
  · rwa [dGet_dSetdefault_ne d k v k2 hk]

theorem dGet_dSetdefault_self_isSome (d : Dict) (k : String) (v : JVal) :
    (dGet (dSetdefault d k v) k).isSome := by
  cases hd : dGet d k with
  | some w => simp [dGet_dSetdefault_of_some d k v w hd]
  | none => simp [dGet_dSetdefault_of_none d k v hd]

end RailControl

namespace RailControl

theorem railMain_import (c : ExecConfig) (e : String) (h : c.importError = some e) :
    railMain c =
      ⟨[[("ok", .jbool false), ("error", .jstr ("bridge_import_failed: " ++ e))]], 1⟩ := by
  unfold railMain
  rw [h]

theorem railMain_error (c : ExecConfig) (m : String)
    (himp : c.importError = none) (h : sessionResult c = .error m) :
    railMain c =
      ⟨[dUpdate (basePayload c) [("ok", .jbool false), ("error", .jstr m)]], 1⟩ := by
  unfold railMain
  rw [himp, h]

theorem railMain_ok (c : ExecConfig) (response : Dict)
    (himp : c.importError = none) (h : sessionResult c = .ok response) :
    railMain c = finishPayload c response := by
  unfold railMain
  rw [himp, h]

theorem railMain_outputs_len (c : ExecConfig) : (railMain c).outputs.length = 1 := by
  unfold railMain
  cases c.importError with
  | some e => rfl
  | none =>
    cases sessionResult c with
    | error m => rfl
    | ok response => rfl

theorem dGet_basePayload_action (c : ExecConfig) :
    dGet (basePayload c) "action" = some (.jstr c.action.str) := by
  simp [basePayload, dGet]

theorem dGet_basePayload_position (c : ExecConfig) :
    dGet (basePayload c) "position" = some (.jnum c.position) := by
  simp [basePayload, dGet]

theorem dGet_basePayload_speed (c : ExecConfig) :
    dGet (basePayload c) "speed" = some (.jnum c.speed) := by
  simp [basePayload, dGet]

theorem dGet_basePayload_ok (c : ExecConfig) :
    dGet (basePayload c) "ok" = none := by
  simp [basePayload, dGet]

/-- The `current_position` aliasing of lines 76–77 can never fire: the
payload always contains a `position` key (echoed from the request and
only ever overwritten, never removed), so `finishPayload` reduces to
merge-then-setdefault. -/
theorem finishPayload_eq (c : ExecConfig) (response : Dict) :
    finishPayload c response =
      ⟨[dSetdefault (dUpdate (basePayload c)
          (if response.isEmpty then [] else response)) "ok" (.jbool true)],
        if (dGet (dSetdefault (dUpdate (basePayload c)
            (if response.isEmpty then [] else response)) "ok" (.jbool true))
            "ok").elim true JVal.truthy then 0 else 1⟩ := by
  have hpos : (dGet (dSetdefault (dUpdate (basePayload c)
      (if response.isEmpty then [] else response)) "ok" (JVal.jbool true))
      "position").isSome := by
    apply dGet_isSome_dSetdefault
    apply dGet_dUpdate_isSome
    simp [dGet_basePayload_position]
  unfold finishPayload
  dsimp only
  cases hx : dGet (dSetdefault (dUpdate (basePayload c)
      (if response.isEmpty then [] else response)) "ok" (JVal.jbool true)) "position" with
  | none => rw [hx] at hpos; simp at hpos
  | some w => simp

theorem dGet_merged_ok_none (c : ExecConfig) (response : Dict)
    (hok : dGet response "ok" = none) :
    dGet (dUpdate (basePayload c) (if response.isEmpty then [] else response)) "ok" = none := by
  cases he : response.isEmpty with
  | true =>
    simp only [he, if_true]
    simpa [dUpdate] using dGet_basePayload_ok c
  | false =>
    simp only [he, Bool.false_eq_true, if_false]
    rw [dGet_dUpdate_of_none response _ "ok" hok]
    exact dGet_basePayload_ok c

theorem railMain_ok_default (c : ExecConfig) (response : Dict)
    (himp : c.importError = none) (h : sessionResult c = .ok response)
    (hok : dGet response "ok" = none) :
    ∃ d, (railMain c).outputs = [d] ∧ dGet d "ok" = some (.jbool true) ∧
      (railMain c).exitCode = 0 := by
  rw [railMain_ok c response himp h, finishPayload_eq]
  have hnone := dGet_merged_ok_none c response hok
  have hset := dGet_dSetdefault_of_none _ "ok" (JVal.jbool true) hnone
  refine ⟨_, rfl, hset, ?_⟩
  show (if (dGet (dSetdefault (dUpdate (basePayload c)
      (if response.isEmpty then [] else response)) "ok" (JVal.jbool true))
      "ok").elim true JVal.truthy then (0 : Nat) else 1) = 0
  rw [hset]
  rfl

theorem railMain_ok_explicit (c : ExecConfig) (response : Dict) (v : JVal)
    (himp : c.importError = none) (h : sessionResult c = .ok response)
    (hn : (response.map Prod.fst).Nodup) (hok : dGet response "ok" = some v) :
    ∃ d, (railMain c).outputs = [d] ∧ dGet d "ok" = some v := by
  rw [railMain_ok c response himp h, finishPayload_eq]
  have hne : response.isEmpty = false := by
    cases response with
    | nil => simp [dGet] at hok
    | cons kv rest => rfl
  rw [hne]
  have hup : dGet (dUpdate (basePayload c)
      (if (false : Bool) then [] else response)) "ok" = some v :=
    dGet_dUpdate_of_some response _ "ok" v hn hok
  have hset := dGet_dSetdefault_of_some _ "ok" (JVal.jbool true) v hup
  exact ⟨_, rfl, hset⟩

theorem dGet_merged_of_none (c : ExecConfig) (response : Dict) (k : String)
    (hk : dGet response k = none) :
    dGet (dUpdate (basePayload c) (if response.isEmpty then [] else response)) k =
      dGet (basePayload c) k := by
  cases he : response.isEmpty with
  | true => rfl
  | false =>
    simp only [he, Bool.false_eq_true, if_false]
    exact dGet_dUpdate_of_none response _ k hk

theorem railMain_error_position (c : ExecConfig) (m : String)
    (himp : c.importError = none) (h : sessionResult c = .error m) :
    ∀ d ∈ (railMain c).outputs, dGet d "position" = some (.jnum c.position) := by
  intro d hd
  rw [railMain_error c m himp h] at hd
  rw [List.mem_singleton.1 hd]
  rw [dGet_dUpdate_of_none _ _ "position" (by simp [dGet]), dGet_basePayload_position]

theorem railMain_ok_position_none (c : ExecConfig) (response : Dict)
    (himp : c.importError = none) (h : sessionResult c = .ok response)
    (hpos : dGet response "position" = none) :
    ∀ d ∈ (railMain c).outputs, dGet d "position" = some (.jnum c.position) := by
  intro d hd
  rw [railMain_ok c response himp h, finishPayload_eq] at hd
  rw [List.mem_singleton.1 hd]
  rw [dGet_dSetdefault_ne _ "ok" _ "position" (by decide),
    dGet_merged_of_none c response "position" hpos, dGet_basePayload_position]

theorem railMain_ok_position_some (c : ExecConfig) (response : Dict) (v : JVal)
    (himp : c.importError = none) (h : sessionResult c = .ok response)
    (hn : (response.map Prod.fst).Nodup) (hpos : dGet response "position" = some v) :
    ∀ d ∈ (railMain c).outputs, dGet d "position" = some v := by
  intro d hd
  rw [railMain_ok c response himp h, finishPayload_eq] at hd
  rw [List.mem_singleton.1 hd]
  have hne : response.isEmpty = false := by
    cases response with
    | nil => simp [dGet] at hpos
    | cons kv rest => rfl
  rw [hne]
  rw [dGet_dSetdefault_ne _ "ok" _ "position" (by decide)]
  exact dGet_dUpdate_of_some response _ "position" v hn hpos

end RailControl

namespace RobotSim

theorem filter_isComplete_stage_map (m : String) (l : List (String × String)) :
    (l.map (progressOfStage m)).filter Event.isComplete = [] := by
  induction l with
  | nil => rfl
  | cons q rest ih => simp [progressOfStage, Event.isComplete, ih]

theorem filter_isComplete_check_map (l : List (String × String)) :
    (l.map progressOfCheck).filter Event.isComplete = [] := by
  induction l with
  | nil => rfl
  | cons q rest ih => simp [progressOfCheck, Event.isComplete, ih]

theorem active_keys_nodup (p : Payload) :
    ((activeStages p ++ activeChecks p).map Prod.fst).Nodup := by
  rcases normalizeMode_cases p with hm | hm <;>
    simp only [activeStages, activeChecks, hm] <;> decide

theorem active_key_props (p : Payload) (k : String)
    (h : k ∈ (activeStages p ++ activeChecks p).map Prod.fst) :
    ¬ k = "" ∧ ¬ k = "starting" := by
  have hall : ∀ k2 ∈ ((STAGES_DISPATCH ++ STAGES_RETURN ++ VISION_CHECKS).map Prod.fst),
      ¬ k2 = "" ∧ ¬ k2 = "starting" := by decide
  apply hall
  rcases normalizeMode_cases p with hm | hm <;>
    simp only [activeStages, activeChecks, hm] at h <;>
    simp only [STAGES_DISPATCH, STAGES_RETURN, VISION_CHECKS] at h ⊢ <;>
    simp at h ⊢ <;> tauto

end RobotSim

/-- C10: an invocation of the stage engine with completely empty standard
input is treated as the empty request, not as malformed input: no payload
error, the mode resolves to `return`, the full return-mode stage and
vision-check sequence runs, and the run terminates with a success event
whose summary carries a null requestId, exiting with code 0. -/
theorem claim_C10 (rng : Nat → Nat) :
    (RobotSim.simMain rng .empty).events =
      [.progress "starting" "요청 - 장비 명령 준비" (some "return"),
       .progress "prepare" "반납 준비 중" (some "return"),
       .progress "verify" "반납 물품 시각 검사" (some "return"),
       .progress "stow" "보관 구역으로 이동" (some "return"),
       .progress "complete" "보관 완료" (some "return"),
       .progress "magazine_top" "탄창 최상단 탄알 위치 확인" none,
       .progress "selector" "조정간 위치 확인" none,
       .progress "serial" "총기 QR 코드 확인" none,
       .completeSuccess "complete" "장비 동작 시뮬레이션 완료" "return" none none] ∧
    (RobotSim.simMain rng .empty).outcome = .exitCode 0 := by
  constructor <;> rfl

/-- C8: the content and ordering of the emitted events, and the process
outcome, are identical for any two random streams (seeded or not); only
the sleep durations read the stream. -/
theorem claim_C8 (r1 r2 : Nat → Nat) (inp : RobotSim.Input) :
    (RobotSim.simMain r1 inp).events = (RobotSim.simMain r2 inp).events ∧
    (RobotSim.simMain r1 inp).outcome = (RobotSim.simMain r2 inp).outcome := by
  cases inp with
  | malformed exc => exact ⟨rfl, rfl⟩
  | empty => exact RobotSim.mainPayload_inv r1 r2 RobotSim.emptyPayload
  | nonObject => exact ⟨rfl, rfl⟩
  | payload p => exact RobotSim.mainPayload_inv r1 r2 p

/-- C7: unparseable input short-circuits before any stage, emitting a
single terminal error event with the reserved stage `payload` and exit
code 1; parsed requests exit 0 with a terminal success event or exit 2
with a terminal error event (workflow failure). -/
theorem claim_C7 (rng : Nat → Nat) (exc : String) (p : RobotSim.Payload) :
    (RobotSim.simMain rng (.malformed exc)).events =
      [.completeError "payload" ("유효하지 않은 JSON 입력: " ++ exc) none] ∧
    (RobotSim.simMain rng (.malformed exc)).outcome = .exitCode 1 ∧
    (((RobotSim.simMain rng (.payload p)).outcome = .exitCode 0 ∧
      (RobotSim.simMain rng (.payload p)).events.getLast? =
        some (RobotSim.successEvent p)) ∨
     ((RobotSim.simMain rng (.payload p)).outcome = .exitCode 2 ∧
      ∃ s m, (RobotSim.simMain rng (.payload p)).events.getLast? =
        some (.completeError s m (some (RobotSim.normalizeMode p))))) :=
  ⟨rfl, rfl, RobotSim.mainPayload_dichotomy rng p⟩

/-- C4: evaluation of the engine at the failing input — valid JSON whose
top-level value is not an object (for example `5`).  `payload.get` raises
`AttributeError` at line 91 and the process dies with no event at all, so
no terminal complete event is emitted, contradicting the claimed
cardinality invariant. -/
theorem claim_C4 (rng : Nat → Nat) :
    RobotSim.simMain rng .nonObject = ⟨[], [], .crash⟩ ∧
    (RobotSim.simMain rng .nonObject).events.filter RobotSim.Event.isComplete = [] :=
  ⟨rfl, rfl⟩

/-- C2 counterexample: the request whose `mode` field is `out` resolves
to `return`, not `dispatch` — line 93 rewrites any mode outside
issue/dispatch/return from the `type` field before line 95 ever sees it,
so the `out` (and `불출`) members of the final collapse set are dead. -/
theorem claim_C2_cex :
    RobotSim.normalizeMode ⟨none, none, some "out", none, none, none⟩ = "return" ∧
    ¬ RobotSim.normalizeMode ⟨none, none, some "out", none, none, none⟩ = "dispatch" := by
  constructor <;> decide

/-- C2 amended: normalization yields exactly two buckets; the resolved
mode is `dispatch` exactly when the lowercased `mode` field is `issue` or
`dispatch`, or the lowercased `mode` field is unrecognized and `type` is
`DISPATCH` or `ISSUE`; every other request (including `mode` equal to
`out` or `불출`) resolves to `return`.  Normalization is idempotent. -/
theorem claim_C2 (p : RobotSim.Payload) :
    (RobotSim.normalizeMode p = "dispatch" ∨ RobotSim.normalizeMode p = "return") ∧
    (RobotSim.normalizeMode p = "dispatch" ↔
      (RobotSim.rawMode p = "issue" ∨ RobotSim.rawMode p = "dispatch" ∨
        (¬ RobotSim.rawMode p = "issue" ∧ ¬ RobotSim.rawMode p = "dispatch" ∧
         ¬ RobotSim.rawMode p = "return" ∧
         (p.type = some "DISPATCH" ∨ p.type = some "ISSUE")))) ∧
    RobotSim.normalizeMode ⟨none, none, some (RobotSim.normalizeMode p), none, none, none⟩ =
      RobotSim.normalizeMode p := by
  refine ⟨RobotSim.normalizeMode_cases p, ?_, ?_⟩
  · unfold RobotSim.normalizeMode RobotSim.midMode
    by_cases h1 : RobotSim.rawMode p = "issue"
    · simp [h1]
    · by_cases h2 : RobotSim.rawMode p = "dispatch"
      · simp [h1, h2]
      · by_cases h3 : RobotSim.rawMode p = "return"
        · simp [h1, h2, h3]
        · by_cases h4 : p.type = some "DISPATCH" ∨ p.type = some "ISSUE"
          · simp [h1, h2, h3, h4]
          · simp [h1, h2, h3, h4]
  · rcases RobotSim.normalizeMode_cases p with hm | hm <;> rw [hm] <;> decide

/-- C1 counterexample: a return request with `fail_stage` set to `bogus`
(matching no stage or vision-check key) terminates with the terminal
success event and exit code 0 — not with a `status=error`,
`stage=unknown` terminal event as the claim states; the misconfigured
injection is silently ignored. -/
theorem claim_C1_cex :
    (RobotSim.simMain (fun _ => 0)
      (.payload ⟨none, none, some "return", none, some ⟨some "bogus", none⟩, none⟩)).outcome =
      .exitCode 0 ∧
    (RobotSim.simMain (fun _ => 0)
      (.payload ⟨none, none, some "return", none, some ⟨some "bogus", none⟩, none⟩)).events.getLast? =
      some (.completeSuccess "complete" "장비 동작 시뮬레이션 완료" "return" none none) ∧
    ∀ e ∈ (RobotSim.simMain (fun _ => 0)
      (.payload ⟨none, none, some "return", none, some ⟨some "bogus", none⟩, none⟩)).events,
      ¬ (RobotSim.Event.isComplete e = true ∧ RobotSim.Event.stage e = "unknown") := by
  refine ⟨rfl, rfl, ?_⟩
  decide

/-- C1 amended: when `simulateConfig.failStage` matches no key of the
active sequence the run still terminates with exactly one terminal
event, but that event is the terminal success event and the exit code is
0: the injection is silently ignored rather than reported as a
`stage=unknown` error. -/
theorem claim_C1 (rng : Nat → Nat) (p : RobotSim.Payload)
    (h : ∀ q ∈ RobotSim.activeStages p ++ RobotSim.activeChecks p,
      ¬ (RobotSim.cfgOf p).fail_stage = some q.1) :
    (RobotSim.mainPayload rng p).events =
      RobotSim.startEvent p :: (RobotSim.stageEvents p ++ RobotSim.checkEvents p ++
        [RobotSim.successEvent p]) ∧
    (RobotSim.mainPayload rng p).outcome = .exitCode 0 ∧
    (RobotSim.mainPayload rng p).events.filter RobotSim.Event.isComplete =
      [RobotSim.successEvent p] := by
  have hm := RobotSim.mainPayload_success rng p h
  refine ⟨hm.1, hm.2, ?_⟩
  rw [hm.1]
  simp [RobotSim.stageEvents, RobotSim.checkEvents, RobotSim.startEvent,
    RobotSim.successEvent, RobotSim.Event.isComplete, List.filter_append,
    RobotSim.filter_isComplete_stage_map, RobotSim.filter_isComplete_check_map]

/-- C1 witness: the amended theorem at a concrete unmatched injection. -/
theorem claim_C1_witness :
    (∀ q ∈ RobotSim.activeStages ⟨none, none, some "return", none, some ⟨some "bogus", none⟩, none⟩ ++
        RobotSim.activeChecks ⟨none, none, some "return", none, some ⟨some "bogus", none⟩, none⟩,
      ¬ (RobotSim.cfgOf ⟨none, none, some "return", none, some ⟨some "bogus", none⟩, none⟩).fail_stage =
        some q.1) ∧
    (RobotSim.mainPayload (fun _ => 0)
      ⟨none, none, some "return", none, some ⟨some "bogus", none⟩, none⟩).outcome = .exitCode 0 :=
  ⟨by decide, (claim_C1 (fun _ => 0) _ (by decide)).2.1⟩

/-- C6: dispatch-mode runs never emit an event whose stage is a
vision-check key (`magazine_top`, `selector`, `serial`); return-mode runs
with no matching injected failure emit the vision-check events in their
fixed order, strictly after all stage events (the event list is exactly
starting, stages, checks, terminal success). -/
theorem claim_C6 (rng : Nat → Nat) (p : RobotSim.Payload) :
    (RobotSim.normalizeMode p = "dispatch" →
      ∀ e ∈ (RobotSim.mainPayload rng p).events,
        ¬ RobotSim.Event.stage e ∈ RobotSim.VISION_CHECKS.map Prod.fst) ∧
    (RobotSim.normalizeMode p = "return" →
      (∀ q ∈ RobotSim.activeStages p ++ RobotSim.activeChecks p,
        ¬ (RobotSim.cfgOf p).fail_stage = some q.1) →
      (RobotSim.mainPayload rng p).events =
        RobotSim.startEvent p :: (RobotSim.stageEvents p ++ RobotSim.checkEvents p ++
          [RobotSim.successEvent p])) := by
  constructor
  · intro hm e he
    have hdk : ∀ r ∈ RobotSim.STAGES_DISPATCH,
        ¬ r.1 ∈ RobotSim.VISION_CHECKS.map Prod.fst := by decide
    by_cases hex : ∃ q ∈ RobotSim.STAGES_DISPATCH, (RobotSim.cfgOf p).fail_stage = some q.1
    · obtain ⟨q, hq, hf⟩ := hex
      obtain ⟨l1, label, l2, hsplit, hfirst⟩ :=
        RobotSim.exists_first_split RobotSim.STAGES_DISPATCH q.1
          (List.mem_map_of_mem Prod.fst hq)
      have hsplit2 : RobotSim.activeStages p = l1 ++ (q.1, label) :: l2 := by
        rw [RobotSim.activeStages, if_pos hm, hsplit]
      have h1 : ∀ r ∈ l1, ¬ (RobotSim.cfgOf p).fail_stage = some r.1 := by
        intro r hr hfr
        rw [hf] at hfr
        exact hfirst r hr (Option.some.inj hfr).symm
      have hev := RobotSim.mainPayload_stage_fail rng p l1 q.1 label l2 hsplit2 h1 hf
      rw [hev.1] at he
      simp only [List.mem_cons, List.mem_append, List.mem_map, List.mem_singleton,
        List.not_mem_nil, or_false] at he
      rcases he with rfl | ⟨⟨r, hr, rfl⟩ | rfl⟩ | rfl
      · show ¬ "starting" ∈ RobotSim.VISION_CHECKS.map Prod.fst
        decide
      · have hr2 : r ∈ RobotSim.STAGES_DISPATCH := by
          rw [hsplit]
          exact List.mem_append_left _ hr
        exact hdk r hr2
      · exact hdk q hq
      · show ¬ RobotSim.Event.stage (RobotSim.finishError p _) ∈
          RobotSim.VISION_CHECKS.map Prod.fst
        have hkey : ∀ k ∈ RobotSim.STAGES_DISPATCH.map Prod.fst,
            ¬ (RobotSim.pyOrStr (some k) "unknown") ∈
              RobotSim.VISION_CHECKS.map Prod.fst := by decide
        show ¬ RobotSim.pyOrStr (RobotSim.cfgOf p).fail_stage "unknown" ∈
          RobotSim.VISION_CHECKS.map Prod.fst
        rw [hf]
        exact hkey q.1 (List.mem_map_of_mem Prod.fst hq)
    · have hnone : ∀ q ∈ RobotSim.activeStages p ++ RobotSim.activeChecks p,
          ¬ (RobotSim.cfgOf p).fail_stage = some q.1 := by
        intro q hq hfq
        rcases List.mem_append.1 hq with hq1 | hq2
        · exact hex ⟨q, by
            rw [RobotSim.activeStages, if_pos hm] at hq1
            exact hq1, hfq⟩
        · rw [RobotSim.activeChecks, hm] at hq2
          simp at hq2
      rw [(RobotSim.mainPayload_success rng p hnone).1] at he
      have hch : RobotSim.checkEvents p = [] := by
        simp [RobotSim.checkEvents, RobotSim.activeChecks, hm]
      rw [hch, List.append_nil] at he
      simp only [RobotSim.stageEvents, List.mem_cons, List.mem_append, List.mem_map,
        List.mem_singleton, List.not_mem_nil, or_false] at he
      rcases he with rfl | ⟨⟨r, hr, rfl⟩ | rfl⟩
      · show ¬ "starting" ∈ RobotSim.VISION_CHECKS.map Prod.fst
        decide
      · have hr2 : r ∈ RobotSim.STAGES_DISPATCH := by
          rw [RobotSim.activeStages, if_pos hm] at hr
          exact hr
        exact hdk r hr2
      · show ¬ "complete" ∈ RobotSim.VISION_CHECKS.map Prod.fst
        decide
  · intro _ h
    exact (RobotSim.mainPayload_success rng p h).1

/-- C6 witness: the theorem at a concrete dispatch request and a concrete
return request. -/
theorem claim_C6_witness :
    (RobotSim.normalizeMode ⟨none, none, some "dispatch", none, none, none⟩ = "dispatch" ∧
      ∀ e ∈ (RobotSim.mainPayload (fun _ => 0)
          ⟨none, none, some "dispatch", none, none, none⟩).events,
        ¬ RobotSim.Event.stage e ∈ RobotSim.VISION_CHECKS.map Prod.fst) ∧
    (RobotSim.normalizeMode ⟨none, none, some "return", none, none, none⟩ = "return" ∧
      (RobotSim.mainPayload (fun _ => 0)
          ⟨none, none, some "return", none, none, none⟩).events =
        RobotSim.startEvent ⟨none, none, some "return", none, none, none⟩ ::
          (RobotSim.stageEvents ⟨none, none, some "return", none, none, none⟩ ++
           RobotSim.checkEvents ⟨none, none, some "return", none, none, none⟩ ++
           [RobotSim.successEvent ⟨none, none, some "return", none, none, none⟩])) :=
  ⟨⟨by decide, (claim_C6 (fun _ => 0) _).1 (by decide)⟩,
   ⟨by decide, (claim_C6 (fun _ => 0) _).2 (by decide) (by decide)⟩⟩

/-- C5 amended: when `fail_stage` equals a real key of the active
sequence, the run aborts at the first occurrence of that key: the last
event is the terminal error event carrying that stage key and the message
`simulateConfig.reason` when that is present and non-empty (otherwise the
default derived from the stage label), no event for any later stage or
check is emitted, and the exit code is 2. -/
theorem claim_C5 (rng : Nat → Nat) (p : RobotSim.Payload) (key : String)
    (hkey : (RobotSim.cfgOf p).fail_stage = some key)
    (hmem : key ∈ (RobotSim.activeStages p ++ RobotSim.activeChecks p).map Prod.fst) :
    ∃ l1 label l2,
      RobotSim.activeStages p ++ RobotSim.activeChecks p = l1 ++ (key, label) :: l2 ∧
      (∀ q ∈ l1, ¬ q.1 = key) ∧
      (RobotSim.mainPayload rng p).events.getLast? =
        some (.completeError key
          (RobotSim.pyOrStr (RobotSim.cfgOf p).reason (label ++ " 실패"))
          (some (RobotSim.normalizeMode p))) ∧
      (∀ q ∈ l2, ∀ e ∈ (RobotSim.mainPayload rng p).events,
        ¬ RobotSim.Event.stage e = q.1) ∧
      (RobotSim.mainPayload rng p).outcome = .exitCode 2 := by
  have hkne : ¬ key = "" := (RobotSim.active_key_props p key hmem).1
  have hpyOr : RobotSim.pyOrStr (some key) "unknown" = key := by
    simp [RobotSim.pyOrStr, hkne]
  have hmem2 := hmem
  rw [List.map_append, List.mem_append] at hmem2
  have hndAll := RobotSim.active_keys_nodup p
  rcases hmem2 with hks | hkc
  · -- the key is a stage key
    obtain ⟨l1, label, l2, hsplit, hfirst⟩ :=
      RobotSim.exists_first_split (RobotSim.activeStages p) key hks
    have h1 : ∀ q ∈ l1, ¬ (RobotSim.cfgOf p).fail_stage = some q.1 := by
      intro q hq hf
      rw [hkey] at hf
      exact hfirst q hq (Option.some.inj hf.symm)
    have hev := RobotSim.mainPayload_stage_fail rng p l1 key label l2 hsplit h1 hkey
    have hsplitAll : RobotSim.activeStages p ++ RobotSim.activeChecks p =
        l1 ++ (key, label) :: (l2 ++ RobotSim.activeChecks p) := by
      rw [hsplit, List.append_assoc, List.cons_append]
    rw [hsplitAll, List.map_append, List.map_cons, List.nodup_append] at hndAll
    obtain ⟨hnd1, hnd2, hdisj⟩ := hndAll
    rw [List.nodup_cons] at hnd2
    obtain ⟨hkeynot, hnd3⟩ := hnd2
    refine ⟨l1, label, l2 ++ RobotSim.activeChecks p, hsplitAll, hfirst, ?_, ?_, hev.2⟩
    · rw [hev.1, ← List.cons_append, List.getLast?_concat]
      simp only [RobotSim.finishError, RobotSim.failMessage, hkey, hpyOr]
    · intro q hq e he
      have hq1 : q.1 ∈ (l2 ++ RobotSim.activeChecks p).map Prod.fst :=
        List.mem_map_of_mem Prod.fst hq
      have hqmem : q.1 ∈ (RobotSim.activeStages p ++ RobotSim.activeChecks p).map Prod.fst := by
        rw [hsplitAll, List.map_append, List.map_cons]
        exact List.mem_append_right _ (List.mem_cons_of_mem _ hq1)
      have hqprops := RobotSim.active_key_props p q.1 hqmem
      rw [hev.1] at he
      rcases List.mem_cons.1 he with rfl | he2
      · intro hc
        exact hqprops.2 ((show RobotSim.Event.stage (RobotSim.startEvent p) = "starting"
          from rfl) ▸ hc).symm
      · rcases List.mem_append.1 he2 with he3 | he4
        · rcases List.mem_append.1 he3 with he5 | he6
          · obtain ⟨r, hr, rfl⟩ := List.mem_map.1 he5
            intro hc
            have hc2 : r.1 = q.1 := hc
            exact hdisj (List.mem_map_of_mem Prod.fst hr)
              (by rw [hc2]; exact List.mem_cons_of_mem _ hq1)
          · rw [List.mem_singleton.1 he6]
            intro hc
            have hc2 : key = q.1 := hc
            exact hkeynot (by rw [hc2]; exact hq1)
        · rw [List.mem_singleton.1 he4]
          intro hc
          have hc2 : RobotSim.pyOrStr (RobotSim.cfgOf p).fail_stage "unknown" = q.1 := hc
          rw [hkey, hpyOr] at hc2
          exact hkeynot (by rw [hc2]; exact hq1)
  · -- the key is a vision-check key (return mode)
    have hm : RobotSim.normalizeMode p = "return" := by
      rcases RobotSim.normalizeMode_cases p with h | h
      · exfalso
        rw [RobotSim.activeChecks, h] at hkc
        simp at hkc
      · exact h
    have hact : RobotSim.activeStages p = RobotSim.STAGES_RETURN := by
      rw [RobotSim.activeStages, hm]
      rfl
    have hchecks : RobotSim.activeChecks p = RobotSim.VISION_CHECKS := by
      rw [RobotSim.activeChecks, if_pos hm]
    have hkc2 : key ∈ RobotSim.VISION_CHECKS.map Prod.fst := by
      rw [hchecks] at hkc
      exact hkc
    have hdisjRV : ∀ a ∈ RobotSim.STAGES_RETURN.map Prod.fst,
        ¬ a ∈ RobotSim.VISION_CHECKS.map Prod.fst := by decide
    obtain ⟨c1, label, c2, hsplitc, hfirst⟩ :=
      RobotSim.exists_first_split RobotSim.VISION_CHECKS key hkc2
    have hs : ∀ q ∈ RobotSim.activeStages p, ¬ (RobotSim.cfgOf p).fail_stage = some q.1 := by
      intro q hq hf
      rw [hkey] at hf
      have hq1 : q.1 = key := Option.some.inj hf.symm
      rw [hact] at hq
      exact hdisjRV q.1 (List.mem_map_of_mem Prod.fst hq) (hq1 ▸ hkc2)
    have h1 : ∀ q ∈ c1, ¬ (RobotSim.cfgOf p).fail_stage = some q.1 := by
      intro q hq hf
      rw [hkey] at hf
      exact hfirst q hq (Option.some.inj hf.symm)
    have hev := RobotSim.mainPayload_check_fail rng p c1 key label c2 hm hs hsplitc h1 hkey
    have hndV : (RobotSim.VISION_CHECKS.map Prod.fst).Nodup := by decide
    rw [hsplitc, List.map_append, List.map_cons, List.nodup_append] at hndV
    obtain ⟨hndc1, hndc2, hdisjc⟩ := hndV
    rw [List.nodup_cons] at hndc2
    obtain ⟨hkeynot, hndc3⟩ := hndc2
    refine ⟨RobotSim.activeStages p ++ c1, label, c2, ?_, ?_, ?_, ?_, hev.2⟩
    · rw [hchecks, hsplitc, List.append_assoc]
    · intro q hq
      rcases List.mem_append.1 hq with hq1 | hq2
      · intro hc
        rw [hact] at hq1
        exact hdisjRV q.1 (List.mem_map_of_mem Prod.fst hq1) (hc ▸ hkc2)
      · exact hfirst q hq2
    · rw [hev.1, ← List.cons_append, List.getLast?_concat]
      simp only [RobotSim.finishError, RobotSim.failMessage, hkey, hpyOr]
    · intro q hq e he
      have hq1 : q.1 ∈ c2.map Prod.fst := List.mem_map_of_mem Prod.fst hq
      have hqV : q.1 ∈ RobotSim.VISION_CHECKS.map Prod.fst := by
        rw [hsplitc, List.map_append, List.map_cons]
        exact List.mem_append_right _ (List.mem_cons_of_mem _ hq1)
      have hqmem : q.1 ∈ (RobotSim.activeStages p ++ RobotSim.activeChecks p).map Prod.fst := by
        rw [List.map_append]
        exact List.mem_append_right _ (by rw [hchecks]; exact hqV)
      have hqprops := RobotSim.active_key_props p q.1 hqmem
      rw [hev.1] at he
      rcases List.mem_cons.1 he with rfl | he2
      · intro hc
        exact hqprops.2 ((show RobotSim.Event.stage (RobotSim.startEvent p) = "starting"
          from rfl) ▸ hc).symm
      · rcases List.mem_append.1 he2 with he3 | he4
        · rcases List.mem_append.1 he3 with he5 | he6
          · rw [RobotSim.stageEvents, hact] at he5
            obtain ⟨r, hr, rfl⟩ := List.mem_map.1 he5
            intro hc
            have hc2 : r.1 = q.1 := hc
            exact hdisjRV r.1 (List.mem_map_of_mem Prod.fst hr) (hc2 ▸ hqV)
          · rcases List.mem_append.1 he6 with he7 | he8
            · obtain ⟨r, hr, rfl⟩ := List.mem_map.1 he7
              intro hc
              have hc2 : r.1 = q.1 := hc
              exact hdisjc (List.mem_map_of_mem Prod.fst hr)
                (by rw [hc2]; exact List.mem_cons_of_mem _ hq1)
            · rw [List.mem_singleton.1 he8]
              intro hc
              have hc2 : key = q.1 := hc
              exact hkeynot (by rw [hc2]; exact hq1)
        · rw [List.mem_singleton.1 he4]
          intro hc
          have hc2 : RobotSim.pyOrStr (RobotSim.cfgOf p).fail_stage "unknown" = q.1 := hc
          rw [hkey, hpyOr] at hc2
          exact hkeynot (by rw [hc2]; exact hq1)

/-- C5 counterexample: with `fail_stage = "pick"` and `reason = ""` the
reason is present but falsy, so the terminal message is the default
derived from the stage label, not the configured (empty) reason as the
claim states. -/
theorem claim_C5_cex :
    (RobotSim.mainPayload (fun _ => 0)
        ⟨none, none, some "dispatch", none, some ⟨some "pick", some ""⟩, none⟩).events.getLast? =
      some (.completeError "pick" "요청 장비 수거 실패" (some "dispatch")) ∧
    ¬ (RobotSim.mainPayload (fun _ => 0)
        ⟨none, none, some "dispatch", none, some ⟨some "pick", some ""⟩, none⟩).events.getLast? =
      some (.completeError "pick" "" (some "dispatch")) := by
  constructor <;> decide

/-- C5 witness: the theorem at the dispatch request injecting a failure
at `pick` with reason `jam`. -/
theorem claim_C5_witness :
    ((RobotSim.cfgOf
        ⟨none, none, some "dispatch", none, some ⟨some "pick", some "jam"⟩, none⟩).fail_stage =
      some "pick") ∧
    ("pick" ∈ (RobotSim.activeStages
        ⟨none, none, some "dispatch", none, some ⟨some "pick", some "jam"⟩, none⟩ ++
      RobotSim.activeChecks
        ⟨none, none, some "dispatch", none, some ⟨some "pick", some "jam"⟩, none⟩).map Prod.fst) ∧
    (∃ l1 label l2,
      RobotSim.activeStages
          ⟨none, none, some "dispatch", none, some ⟨some "pick", some "jam"⟩, none⟩ ++
        RobotSim.activeChecks
          ⟨none, none, some "dispatch", none, some ⟨some "pick", some "jam"⟩, none⟩ =
        l1 ++ ("pick", label) :: l2 ∧
      (∀ q ∈ l1, ¬ q.1 = "pick") ∧
      (RobotSim.mainPayload (fun _ => 0)
          ⟨none, none, some "dispatch", none, some ⟨some "pick", some "jam"⟩, none⟩).events.getLast? =
        some (.completeError "pick"
          (RobotSim.pyOrStr (RobotSim.cfgOf
            ⟨none, none, some "dispatch", none, some ⟨some "pick", some "jam"⟩, none⟩).reason
            (label ++ " 실패"))
          (some (RobotSim.normalizeMode
            ⟨none, none, some "dispatch", none, some ⟨some "pick", some "jam"⟩, none⟩))) ∧
      (∀ q ∈ l2, ∀ e ∈ (RobotSim.mainPayload (fun _ => 0)
          ⟨none, none, some "dispatch", none, some ⟨some "pick", some "jam"⟩, none⟩).events,
        ¬ RobotSim.Event.stage e = q.1) ∧
      (RobotSim.mainPayload (fun _ => 0)
          ⟨none, none, some "dispatch", none, some ⟨some "pick", some "jam"⟩, none⟩).outcome =
        .exitCode 2) :=
  ⟨rfl, by decide, claim_C5 (fun _ => 0) _ "pick" rfl (by decide)⟩

/-- C3 counterexample: two paths falsify the claimed output invariant.
When importing the bridge SDK fails, the single output record is only
`ok`/`error` — it carries no `action`, `position` or `speed` field.  And
on a healthy run whose bridge result carries its own `position`,
`payload.update(response)` overwrites the echoed request value (800)
with the bridge value (5), so `position` is not the echoed value. -/
theorem claim_C3_cex :
    ((RailControl.railMain ⟨some "No module named robot_sdk_v13_rail_extended",
        ⟨none, .nonDict, .nonDict, .nonDict⟩, .extend, "127.0.0.1", 800, 200⟩).outputs =
      [[("ok", .jbool false),
        ("error", .jstr "bridge_import_failed: No module named robot_sdk_v13_rail_extended")]] ∧
     RailControl.dGet
      ((RailControl.railMain ⟨some "No module named robot_sdk_v13_rail_extended",
        ⟨none, .nonDict, .nonDict, .nonDict⟩, .extend, "127.0.0.1", 800, 200⟩).outputs.headD [])
      "action" = none) ∧
    (RailControl.dGet
      ((RailControl.railMain ⟨none,
        ⟨none, .dict [("position", .jnum 5)], .nonDict, .nonDict⟩,
        .extend, "127.0.0.1", 800, 200⟩).outputs.headD [])
      "position" = some (.jnum 5) ∧
     ¬ RailControl.dGet
      ((RailControl.railMain ⟨none,
        ⟨none, .dict [("position", .jnum 5)], .nonDict, .nonDict⟩,
        .extend, "127.0.0.1", 800, 200⟩).outputs.headD [])
      "position" = some (.jnum 800)) := by
  refine ⟨⟨rfl, rfl⟩, rfl, ?_⟩
  decide

/-- C3 amended: exactly one output record is printed per invocation; when
the SDK import succeeds the record always contains at least `action`,
`position`, `speed` and `ok`, and `position` is the echoed request value
unless the bridge result or status supplied a `position` of its own,
which overwrites the echo; on the import-failure path the single record
instead contains only `ok = false` and the error message. -/
theorem claim_C3 (c : RailControl.ExecConfig) :
    (RailControl.railMain c).outputs.length = 1 ∧
    (c.importError = none →
      ∀ d ∈ (RailControl.railMain c).outputs,
        (RailControl.dGet d "action").isSome ∧ (RailControl.dGet d "position").isSome ∧
        (RailControl.dGet d "speed").isSome ∧ (RailControl.dGet d "ok").isSome) ∧
    (c.importError = none →
      (∀ m, RailControl.sessionResult c = .error m →
        ∀ d ∈ (RailControl.railMain c).outputs,
          RailControl.dGet d "position" = some (.jnum c.position)) ∧
      (∀ response, RailControl.sessionResult c = .ok response →
        (RailControl.dGet response "position" = none →
          ∀ d ∈ (RailControl.railMain c).outputs,
            RailControl.dGet d "position" = some (.jnum c.position)) ∧
        (∀ v, (response.map Prod.fst).Nodup →
          RailControl.dGet response "position" = some v →
          ∀ d ∈ (RailControl.railMain c).outputs,
            RailControl.dGet d "position" = some v))) ∧
    (∀ e, c.importError = some e →
      (RailControl.railMain c).outputs =
        [[("ok", .jbool false), ("error", .jstr ("bridge_import_failed: " ++ e))]]) := by
  refine ⟨RailControl.railMain_outputs_len c, ?_, ?_, ?_⟩
  · intro himp d hd
    cases hsr : RailControl.sessionResult c with
    | error m =>
      rw [RailControl.railMain_error c m himp hsr] at hd
      rw [List.mem_singleton.1 hd]
      refine ⟨?_, ?_, ?_, ?_⟩
      · rw [RailControl.dGet_dUpdate_of_none _ _ "action" (by simp [RailControl.dGet]),
          RailControl.dGet_basePayload_action]
        rfl
      · rw [RailControl.dGet_dUpdate_of_none _ _ "position" (by simp [RailControl.dGet]),
          RailControl.dGet_basePayload_position]
        rfl
      · rw [RailControl.dGet_dUpdate_of_none _ _ "speed" (by simp [RailControl.dGet]),
          RailControl.dGet_basePayload_speed]
        rfl
      · rw [RailControl.dGet_dUpdate_of_some _ _ "ok" (RailControl.JVal.jbool false)
          (by simp [RailControl.dGet]) (by simp [RailControl.dGet])]
        rfl
    | ok response =>
      rw [RailControl.railMain_ok c response himp hsr, RailControl.finishPayload_eq] at hd
      rw [List.mem_singleton.1 hd]
      refine ⟨?_, ?_, ?_, ?_⟩
      · exact RailControl.dGet_isSome_dSetdefault _ _ _ _
          (RailControl.dGet_dUpdate_isSome _ _ _
            (by rw [RailControl.dGet_basePayload_action]; rfl))
      · exact RailControl.dGet_isSome_dSetdefault _ _ _ _
          (RailControl.dGet_dUpdate_isSome _ _ _
            (by rw [RailControl.dGet_basePayload_position]; rfl))
      · exact RailControl.dGet_isSome_dSetdefault _ _ _ _
          (RailControl.dGet_dUpdate_isSome _ _ _
            (by rw [RailControl.dGet_basePayload_speed]; rfl))
      · exact RailControl.dGet_dSetdefault_self_isSome _ _ _
  · intro himp
    constructor
    · intro m hm
      exact RailControl.railMain_error_position c m himp hm
    · intro response hresp
      constructor
      · intro hpos
        exact RailControl.railMain_ok_position_none c response himp hresp hpos
      · intro v hn hpos
        exact RailControl.railMain_ok_position_some c response v himp hresp hn hpos
  · intro e he
    rw [RailControl.railMain_import c e he]

/-- C3 witness: the amended theorem at a healthy-import configuration
(field presence), at a session-open failure (position echoes the
request), at a bridge whose result supplies its own position (the bridge
value wins), and at an import-failure configuration. -/
theorem claim_C3_witness :
    ((⟨none, ⟨none, .nonDict, .nonDict, .nonDict⟩, .extend, "h", 800, 200⟩ :
        RailControl.ExecConfig).importError = none ∧
      ∀ d ∈ (RailControl.railMain
          ⟨none, ⟨none, .nonDict, .nonDict, .nonDict⟩, .extend, "h", 800, 200⟩).outputs,
        (RailControl.dGet d "action").isSome ∧ (RailControl.dGet d "position").isSome ∧
        (RailControl.dGet d "speed").isSome ∧ (RailControl.dGet d "ok").isSome) ∧
    (RailControl.sessionResult
        ⟨none, ⟨some "boom", .nonDict, .nonDict, .nonDict⟩, .extend, "h", 800, 200⟩ =
      .error "boom" ∧
      ∀ d ∈ (RailControl.railMain
          ⟨none, ⟨some "boom", .nonDict, .nonDict, .nonDict⟩, .extend, "h", 800, 200⟩).outputs,
        RailControl.dGet d "position" = some (.jnum 800)) ∧
    (RailControl.sessionResult
        ⟨none, ⟨none, .dict [("position", .jnum 5)], .nonDict, .nonDict⟩,
          .extend, "h", 800, 200⟩ = .ok [("position", .jnum 5)] ∧
      ∀ d ∈ (RailControl.railMain
          ⟨none, ⟨none, .dict [("position", .jnum 5)], .nonDict, .nonDict⟩,
            .extend, "h", 800, 200⟩).outputs,
        RailControl.dGet d "position" = some (.jnum 5)) ∧
    ((⟨some "boom", ⟨none, .nonDict, .nonDict, .nonDict⟩, .extend, "h", 800, 200⟩ :
        RailControl.ExecConfig).importError = some "boom" ∧
      (RailControl.railMain
          ⟨some "boom", ⟨none, .nonDict, .nonDict, .nonDict⟩, .extend, "h", 800, 200⟩).outputs =
        [[("ok", .jbool false), ("error", .jstr ("bridge_import_failed: " ++ "boom"))]]) :=
  ⟨⟨rfl, (claim_C3 _).2.1 rfl⟩,
   ⟨rfl, ((claim_C3
      ⟨none, ⟨some "boom", .nonDict, .nonDict, .nonDict⟩, .extend, "h", 800, 200⟩).2.2.1
      rfl).1 "boom" rfl⟩,
   ⟨rfl, (((claim_C3
      ⟨none, ⟨none, .dict [("position", .jnum 5)], .nonDict, .nonDict⟩,
        .extend, "h", 800, 200⟩).2.2.1 rfl).2 [("position", .jnum 5)] rfl).2
      (.jnum 5) (by decide) rfl⟩,
   ⟨rfl, (claim_C3 _).2.2.2 "boom" rfl⟩⟩

/-- C9: after the primary bridge command completes, the status position
is merged only when the result lacks its own (result fields win on
conflict); the output `ok` defaults to `true` unless the result supplied
an `ok` value of its own (in particular an explicit `false` survives);
and any exception while opening the session or issuing commands is
captured into the payload with `ok = false`, the message under `error`,
and exit code 1. -/
theorem claim_C9 (c : RailControl.ExecConfig) :
    (∀ rd sd, c.bridge.move = .dict rd → c.bridge.status = .dict sd →
      ∃ out, RailControl.ensure_position c.bridge = .ok out ∧
        (∀ v, RailControl.dGet rd "position" = some v →
          RailControl.dGet out "position" = some v) ∧
        (RailControl.dGet rd "position" = none →
          ∀ v, RailControl.dGet sd "position" = some v →
            RailControl.dGet out "position" = some v)) ∧
    (c.importError = none → c.bridge.openError = none →
      ∀ out, RailControl.commandResult c = .ok out →
        (out.map Prod.fst).Nodup →
        (RailControl.dGet out "ok" = none →
          ∃ d, (RailControl.railMain c).outputs = [d] ∧
            RailControl.dGet d "ok" = some (.jbool true) ∧
            (RailControl.railMain c).exitCode = 0) ∧
        (∀ v, RailControl.dGet out "ok" = some v →
          ∃ d, (RailControl.railMain c).outputs = [d] ∧
            RailControl.dGet d "ok" = some v)) ∧
    (c.importError = none →
      ∀ m, (c.bridge.openError = some m ∨
        (c.bridge.openError = none ∧ RailControl.commandResult c = .error m)) →
        ∃ d, (RailControl.railMain c).outputs = [d] ∧
          RailControl.dGet d "ok" = some (.jbool false) ∧
          RailControl.dGet d "error" = some (.jstr m) ∧
          (RailControl.railMain c).exitCode = 1) := by
  refine ⟨?_, ?_, ?_⟩
  · intro rd sd hmove hstat
    have he : RailControl.ensure_position c.bridge =
        (match RailControl.dGet sd "position" with
         | some v => Except.ok (RailControl.dSetdefault rd "position" v)
         | none => Except.ok rd) := by
      unfold RailControl.ensure_position RailControl.ensureResult RailControl.mergeStatus
      rw [hmove, hstat]
    rw [he]
    cases hsd : RailControl.dGet sd "position" with
    | some v =>
      refine ⟨RailControl.dSetdefault rd "position" v, rfl, ?_, ?_⟩
      · intro w hw
        exact RailControl.dGet_dSetdefault_of_some rd "position" v w hw
      · intro hrd w hw
        rw [RailControl.dGet_dSetdefault_of_none rd "position" v hrd]
        exact hw
    | none =>
      refine ⟨rd, rfl, fun w hw => hw, ?_⟩
      intro hrd w hw
      exact absurd hw (by simp)
  · intro himp hopen out hcmd hnodup
    have hsr : RailControl.sessionResult c = .ok out := by
      unfold RailControl.sessionResult
      rw [hopen]
      exact hcmd
    constructor
    · intro hok
      exact RailControl.railMain_ok_default c out himp hsr hok
    · intro v hok
      exact RailControl.railMain_ok_explicit c out v himp hsr hnodup hok
  · intro himp m hdisj
    have hsr : RailControl.sessionResult c = .error m := by
      unfold RailControl.sessionResult
      rcases hdisj with h | ⟨h1, h2⟩
      · rw [h]
      · rw [h1]
        exact h2
    rw [RailControl.railMain_error c m himp hsr]
    refine ⟨_, rfl, ?_, ?_, rfl⟩
    · rw [RailControl.dGet_dUpdate_of_some _ _ "ok" (RailControl.JVal.jbool false)
        (by simp [RailControl.dGet]) (by simp [RailControl.dGet])]
    · rw [RailControl.dGet_dUpdate_of_some _ _ "error" (RailControl.JVal.jstr m)
        (by simp [RailControl.dGet]) (by simp [RailControl.dGet])]

/-- C9 witness: the theorem at a healthy bridge whose move result carries
its own position (which wins over the status value), and at a bridge
whose session open raises. -/
theorem claim_C9_witness :
    ((⟨none, ⟨none, .dict [("ok", .jbool true), ("position", .jnum 5)], .nonDict,
        .dict [("position", .jnum 7)]⟩, .extend, "h", 800, 200⟩ :
        RailControl.ExecConfig).bridge.move =
      .dict [("ok", .jbool true), ("position", .jnum 5)] ∧
     ∃ out, RailControl.ensure_position
        (⟨none, ⟨none, .dict [("ok", .jbool true), ("position", .jnum 5)], .nonDict,
          .dict [("position", .jnum 7)]⟩, .extend, "h", 800, 200⟩ :
          RailControl.ExecConfig).bridge = .ok out ∧
        (∀ v, RailControl.dGet [("ok", .jbool true), ("position", .jnum 5)] "position" = some v →
          RailControl.dGet out "position" = some v) ∧
        (RailControl.dGet [("ok", .jbool true), ("position", .jnum 5)] "position" = none →
          ∀ v, RailControl.dGet [("position", .jnum 7)] "position" = some v →
            RailControl.dGet out "position" = some v)) ∧
    ((⟨none, ⟨some "boom", .nonDict, .nonDict, .nonDict⟩, .home, "h", 800, 150⟩ :
        RailControl.ExecConfig).importError = none ∧
     ∃ d, (RailControl.railMain
        ⟨none, ⟨some "boom", .nonDict, .nonDict, .nonDict⟩, .home, "h", 800, 150⟩).outputs = [d] ∧
        RailControl.dGet d "ok" = some (.jbool false) ∧
        RailControl.dGet d "error" = some (.jstr "boom") ∧
        (RailControl.railMain
          ⟨none, ⟨some "boom", .nonDict, .nonDict, .nonDict⟩, .home, "h", 800, 150⟩).exitCode = 1) :=
  ⟨⟨rfl, (claim_C9 _).1 [("ok", .jbool true), ("position", .jnum 5)]
      [("position", .jnum 7)] rfl rfl⟩,
   ⟨rfl, (claim_C9 _).2.2 rfl "boom" (Or.inl rfl)⟩⟩
